import Mathlib

set_option maxRecDepth 8192

/-!
Formal model of the github-agent webhook relay (`main.js`).

The repository is a single Express application that receives GitHub webhook
deliveries on `POST /github/webhook`, verifies the `X-Hub-Signature-256`
HMAC over the raw request body, filters by an allow-list of repositories,
routes `issues/closed` and `issue_comment/created` events, renders a Feishu
notification (rich post or plain text) and dispatches it fire-and-forget
after answering the inbound request.

Modelling conventions:
* raw bodies and buffers are `List Nat` (byte values);
* JavaScript strings are Lean `String`s; the JS `length` is the number of
  characters; `Buffer.from(s)` is UTF-8 encoding (`utf8Encode`);
* JSON values (results of `JSON.parse`) are the inductive `JsValue`;
  `JSON.parse` itself is a Node builtin and is passed to the handler as an
  oracle `parse : List Nat → Option JsValue` (`none` = the parse threw);
* JavaScript exceptions (`TypeError` from property access on
  `undefined`/`null` or from `createHmac(undefined)`, `RangeError` from
  `crypto.timingSafeEqual` on buffers of different byte length) are the
  `Except JsError` monad;
* Node `crypto` HMAC-SHA256 is implemented concretely below (FIPS 180-4),
  so every definition is executable.
-/

/-- JavaScript runtime errors relevant to this program: `TypeError`
(property access on `undefined`/`null`, HMAC key of wrong type) and
`RangeError` (`crypto.timingSafeEqual` on buffers of unequal byte length). -/
inductive JsError where
  | typeError
  | rangeError
deriving DecidableEq

/-! ## SHA-256 and HMAC-SHA256 (models Node `crypto.createHmac("sha256", k)`) -/

/-- Addition of 32-bit words. -/
def add32 (a b : Nat) : Nat := (a + b) % 4294967296

/-- Rotate the 32-bit word `x` right by `k` positions. -/
def rotr (k x : Nat) : Nat := ((x >>> k) ||| (x <<< (32 - k))) % 4294967296

def bigSigma0 (x : Nat) : Nat := rotr 2 x ^^^ rotr 13 x ^^^ rotr 22 x

def bigSigma1 (x : Nat) : Nat := rotr 6 x ^^^ rotr 11 x ^^^ rotr 25 x

def smallSigma0 (x : Nat) : Nat := rotr 7 x ^^^ rotr 18 x ^^^ (x >>> 3)

def smallSigma1 (x : Nat) : Nat := rotr 17 x ^^^ rotr 19 x ^^^ (x >>> 10)

/-- The SHA-256 choose function, in its mux form `g ⊕ (e ∧ (f ⊕ g))`. -/
def chFun (e f g : Nat) : Nat := g ^^^ (e &&& (f ^^^ g))

/-- The SHA-256 majority function, in the form `(a ∧ b) ⊕ (c ∧ (a ⊕ b))`. -/
def majFun (a b c : Nat) : Nat := (a &&& b) ^^^ (c &&& (a ^^^ b))

/-- The 64 round constants of SHA-256 (FIPS 180-4 §4.2.2), in decimal. -/
def sha256K : List Nat :=
  [1116352408, 1899447441, 3049323471, 3921009573, 961987163, 1508970993,
   2453635748, 2870763221, 3624381080, 310598401, 607225278, 1426881987,
   1925078388, 2162078206, 2614888103, 3248222580, 3835390401, 4022224774,
   264347078, 604807628, 770255983, 1249150122, 1555081692, 1996064986,
   2554220882, 2821834349, 2952996808, 3210313671, 3336571891, 3584528711,
   113926993, 338241895, 666307205, 773529912, 1294757372, 1396182291,
   1695183700, 1986661051, 2177026350, 2456956037, 2730485921, 2820302411,
   3259730800, 3345764771, 3516065817, 3600352804, 4094571909, 275423344,
   430227734, 506948616, 659060556, 883997877, 958139571, 1322822218,
   1537002063, 1747873779, 1955562222, 2024104815, 2227730452, 2361852424,
   2428436474, 2756734187, 3204031479, 3329325298]

/-- The initial SHA-256 hash state (FIPS 180-4 §5.3.3), in decimal. -/
def sha256H0 : List Nat :=
  [1779033703, 3144134277, 1013904242, 2773480762,
   1359893119, 2600822924, 528734635, 1541459225]

/-- One extension step of the SHA-256 message schedule: appends word
`w[i] = σ1 w[i-2] + w[i-7] + σ0 w[i-15] + w[i-16]` for `i = ws.length`. -/
def scheduleStep (ws : List Nat) : List Nat :=
  let i := ws.length
  ws ++ [(smallSigma1 (ws.getD (i - 2) 0) + ws.getD (i - 7) 0 +
          smallSigma0 (ws.getD (i - 15) 0) + ws.getD (i - 16) 0) % 4294967296]

/-- The 64-word message schedule of one 16-word block. -/
def messageSchedule (block : List Nat) : List Nat := Nat.repeat scheduleStep 48 block

/-- One SHA-256 compression round on the 8-word register list. -/
def compressStep (st : List Nat) (wk : Nat × Nat) : List Nat :=
  let a := st.getD 0 0
  let b := st.getD 1 0
  let c := st.getD 2 0
  let d := st.getD 3 0
  let e := st.getD 4 0
  let f := st.getD 5 0
  let g := st.getD 6 0
  let h := st.getD 7 0
  let t1 := (h + bigSigma1 e + chFun e f g + wk.2 + wk.1) % 4294967296
  let t2 := (bigSigma0 a + majFun a b c) % 4294967296
  [add32 t1 t2, a, b, c, add32 d t1, e, f, g]

/-- Process one 16-word block: run the 64 compression rounds and add the
result to the incoming state. -/
def processBlock (st : List Nat) (block : List Nat) : List Nat :=
  let w := messageSchedule block
  let final := (w.zip sha256K).foldl compressStep st
  List.zipWith add32 st final

/-- Big-endian 4-byte decomposition of a 32-bit word. -/
def wordBytes (w : Nat) : List Nat :=
  [w / 16777216 % 256, w / 65536 % 256, w / 256 % 256, w % 256]

/-- Big-endian 8-byte encoding of a 64-bit length. -/
def be64 (n : Nat) : List Nat :=
  [n / 72057594037927936 % 256, n / 281474976710656 % 256, n / 1099511627776 % 256,
   n / 4294967296 % 256, n / 16777216 % 256, n / 65536 % 256, n / 256 % 256, n % 256]

/-- SHA-256 padding: `0x80`, zeros to 56 mod 64, then the bit length. -/
def padMessage (msg : List Nat) : List Nat :=
  let L := msg.length
  let zeros := (120 - (L + 1) % 64) % 64
  msg ++ [128] ++ List.replicate zeros 0 ++ be64 (8 * L)

/-- Split a byte list into chunks of 64 (fuel-based recursion). -/
def chunks64Go : Nat → List Nat → List (List Nat)
  | 0, _ => []
  | _, [] => []
  | fuel + 1, l => l.take 64 :: chunks64Go fuel (l.drop 64)

def chunks64 (l : List Nat) : List (List Nat) := chunks64Go l.length l

/-- Group bytes into big-endian 32-bit words (fuel-based recursion). -/
def toWordsGo : Nat → List Nat → List Nat
  | 0, _ => []
  | _, [] => []
  | fuel + 1, a :: b :: c :: d :: rest =>
      (a * 16777216 + b * 65536 + c * 256 + d) :: toWordsGo fuel rest
  | _ + 1, _ => []

def toWords (l : List Nat) : List Nat := toWordsGo l.length l

/-- SHA-256 of a byte list, as a 32-byte list. -/
def sha256 (msg : List Nat) : List Nat :=
  let blocks := (chunks64 (padMessage msg)).map toWords
  let final := blocks.foldl processBlock sha256H0
  (final.map wordBytes).flatten

/-- HMAC-SHA256 over byte lists (RFC 2104), the algorithm behind
`crypto.createHmac("sha256", key).update(msg).digest()`. -/
def hmacSha256 (key msg : List Nat) : List Nat :=
  let key1 := if key.length > 64 then sha256 key else key
  let keyPad := key1 ++ List.replicate (64 - key1.length) 0
  let ipad := keyPad.map fun b => b ^^^ 54
  let opad := keyPad.map fun b => b ^^^ 92
  sha256 (opad ++ sha256 (ipad ++ msg))

/-! ## Hex, base64 and UTF-8 -/

/-- The lowercase hex digits. -/
def hexDigits : List Char := "0123456789abcdef".data

/-- The hex digit of the low nibble of `n`. -/
def hexChar (n : Nat) : Char := hexDigits.getD (n % 16) '0'

/-- Lowercase hex encoding of a byte list (`digest("hex")`). -/
def hexDigest (bytes : List Nat) : String :=
  String.mk ((bytes.map fun b => [hexChar (b / 16), hexChar (b % 16)]).flatten)

/-- The base64 alphabet. -/
def base64Chars : List Char :=
  "ABCDEFGHIJKLMNOPQRSTUVWXYZabcdefghijklmnopqrstuvwxyz0123456789+/".data

def base64Char (n : Nat) : Char := base64Chars.getD (n % 64) 'A'

/-- Base64 chunk encoder over byte lists. -/
def base64Go : List Nat → List Char
  | a :: b :: c :: rest =>
      let n := a * 65536 + b * 256 + c
      base64Char (n / 262144) :: base64Char (n / 4096) :: base64Char (n / 64) ::
        base64Char n :: base64Go rest
  | [a, b] =>
      let n := a * 65536 + b * 256
      [base64Char (n / 262144), base64Char (n / 4096), base64Char (n / 64), '=']
  | [a] =>
      let n := a * 65536
      [base64Char (n / 262144), base64Char (n / 4096), '=', '=']
  | [] => []

/-- Base64 encoding of a byte list (`digest("base64")`). -/
def base64Encode (bytes : List Nat) : String := String.mk (base64Go bytes)

/-- UTF-8 encoding of one character, written arithmetically. -/
def utf8Char (c : Char) : List Nat :=
  let n := c.toNat
  if n < 128 then [n]
  else if n < 2048 then [192 + n / 64, 128 + n % 64]
  else if n < 65536 then [224 + n / 4096, 128 + n / 64 % 64, 128 + n % 64]
  else [240 + n / 262144, 128 + n / 4096 % 64, 128 + n / 64 % 64, 128 + n % 64]

def utf8Bytes : List Char → List Nat
  | [] => []
  | c :: cs => utf8Char c ++ utf8Bytes cs

/-- UTF-8 encoding of a string: models `Buffer.from(s)` for a JS string. -/
def utf8Encode (s : String) : List Nat := utf8Bytes s.data

/-! ## Signature verification (`verifyGitHubSignature` in `main.js`) -/

/-- The expected signature header
`"sha256=" + createHmac("sha256", secret).update(body).digest("hex")`. -/
def expectedHeader (secret : String) (body : List Nat) : String :=
  "sha256=" ++ hexDigest (hmacSha256 (utf8Encode secret) body)

/-- Constant-time accumulator of `crypto.timingSafeEqual`: xor every byte
pair into an or-accumulator, also counting how many byte pairs were
visited. It never exits early on a mismatch. -/
def ctCompareTrace : List (Nat × Nat) → Nat → Nat × Nat
  | [], acc => (acc, 0)
  | p :: ps, acc =>
      let r := ctCompareTrace ps (acc ||| (p.1 ^^^ p.2))
      (r.1, r.2 + 1)

/-- Models Node `crypto.timingSafeEqual(a, b)`: throws `RangeError` when the
byte lengths differ, otherwise compares all bytes in constant time. -/
def timingSafeEqual (a b : List Nat) : Except JsError Bool :=
  if a.length = b.length then .ok ((ctCompareTrace (a.zip b) 0).1 == 0)
  else .error .rangeError

/-- `timingSafeEqual` instrumented with the number of byte comparisons the
constant-time loop performs. -/
def timingSafeEqualTimed (a b : List Nat) : Except JsError Bool × Nat :=
  if a.length = b.length then
    (.ok ((ctCompareTrace (a.zip b) 0).1 == 0), (ctCompareTrace (a.zip b) 0).2)
  else (.error .rangeError, 0)

/-- `verifyGitHubSignature(req)` from `main.js`. The secret is the
`GITHUB_WEBHOOK_SECRET` environment value (`none` = unset, in which case
`createHmac` throws a `TypeError`); `sigHeader` is the
`X-Hub-Signature-256` header (`req.header(...) || ""`). Buffers are the
UTF-8 bytes of the strings, as `Buffer.from` produces. -/
def verifyGitHubSignature (secret : Option String) (body : List Nat)
    (sigHeader : Option String) : Except JsError Bool :=
  match secret with
  | none => .error .typeError
  | some sk =>
    let sig := sigHeader.getD ""
    let expected := expectedHeader sk body
    if sig == "" || sig.length != expected.length then .ok false
    else timingSafeEqual (utf8Encode sig) (utf8Encode expected)

/-- `verifyGitHubSignature` instrumented with the byte-comparison count of
the final constant-time comparison (0 when that comparison is never run). -/
def verifyGitHubSignatureTimed (secret : Option String) (body : List Nat)
    (sigHeader : Option String) : Except JsError Bool × Nat :=
  match secret with
  | none => (.error .typeError, 0)
  | some sk =>
    let sig := sigHeader.getD ""
    let expected := expectedHeader sk body
    if sig == "" || sig.length != expected.length then (.ok false, 0)
    else timingSafeEqualTimed (utf8Encode sig) (utf8Encode expected)

/-! ## JSON values and JavaScript object semantics -/

/-- A JavaScript value as it can appear after `JSON.parse` (plus
`undefined`, the result of accessing an absent property). Numbers are
modelled as integers: the program never computes with parsed numbers, it
only interpolates them into strings. -/
inductive JsValue where
  | undefined
  | null
  | bool (b : Bool)
  | num (n : Int)
  | str (s : String)
  | arr (elems : List JsValue)
  | obj (fields : List (String × JsValue))

/-- JavaScript truthiness of a `JsValue`. -/
def jsTruthy : JsValue → Bool
  | .undefined => false
  | .null => false
  | .bool b => b
  | .num n => n != 0
  | .str s => s != ""
  | .arr _ => true
  | .obj _ => true

/-- The JavaScript `a || b` over values. -/
def jsOr (a b : JsValue) : JsValue := if jsTruthy a then a else b

mutual

/-- JavaScript string conversion as used by template literals. -/
def jsToString : JsValue → String
  | .undefined => "undefined"
  | .null => "null"
  | .bool true => "true"
  | .bool false => "false"
  | .num n => toString n
  | .str s => s
  | .arr xs => String.intercalate "," (jsArrElemStrings xs)
  | .obj _ => "[object Object]"

/-- Array elements stringify with `null`/`undefined` becoming empty. -/
def jsArrElemStrings : List JsValue → List String
  | [] => []
  | .undefined :: xs => "" :: jsArrElemStrings xs
  | .null :: xs => "" :: jsArrElemStrings xs
  | x :: xs => jsToString x :: jsArrElemStrings xs

end

/-- Property lookup on a value that is not `undefined`/`null`: a field of an
object, `undefined` otherwise (JS property access on primitives and on
absent keys yields `undefined`). -/
def jsIndex : JsValue → String → JsValue
  | .obj fs, k =>
      match fs.find? fun p => p.1 == k with
      | some p => p.2
      | none => .undefined
  | _, _ => .undefined

/-- Plain property access `v.k` / `v[k]`: throws `TypeError` on
`undefined` and `null`. -/
def jsGet : JsValue → String → Except JsError JsValue
  | .undefined, _ => .error .typeError
  | .null, _ => .error .typeError
  | v, k => .ok (jsIndex v k)

/-- Optional chaining `v?.k`: `undefined` on `undefined`/`null`. -/
def optChainGet : JsValue → String → JsValue
  | .undefined, _ => .undefined
  | .null, _ => .undefined
  | v, k => jsIndex v k

/-- Is the value `undefined` or `null`? -/
def jsNullish : JsValue → Bool
  | .undefined => true
  | .null => true
  | _ => false

/-- Strict equality `v === "s"` against a string literal. -/
def jsStrictEqStr : JsValue → String → Bool
  | .str t, s => t == s
  | _, _ => false

/-- Membership of a value in a `Set` of strings (SameValueZero): only a
string value can be a member. -/
def jsSetHas (l : List String) : JsValue → Bool
  | .str s => l.contains s
  | _ => false

/-- Is `Except` a success? -/
def exceptOk : Except ε α → Bool
  | .ok _ => true
  | .error _ => false

/-! ## Message rendering -/

/-- One line segment of a Feishu rich post: `tag:"text"`, `tag:"a"`, or the
mention segment `tag:"at"` (`user_id`/`user_name` carry whatever values the
identity-mapping entry supplies). -/
inductive Segment where
  | text (text : String)
  | link (text : String) (href : JsValue)
  | mention (userId userName : JsValue)

def Segment.isMention : Segment → Bool
  | .mention _ _ => true
  | _ => false

/-- An outbound Feishu message: `msg_type:"text"` or `msg_type:"post"`. -/
inductive FeishuMsg where
  | text (text : String)
  | post (title : String) (content : List Segment)

/-- `const opener = issue.user?.login || ""` applied to the value of
`issue.user`. -/
def openerLogin (user : JsValue) : JsValue := jsOr (optChainGet user "login") (.str "")

/-- `${x?.login || "unknown"}`: the attribution text used for
`payload.sender` in the issue-closed message and for `comment.user` in the
new-comment message. -/
def loginOrUnknown (user : JsValue) : String :=
  jsToString (jsOr (optChainGet user "login") (.str "unknown"))

/-- The `contentLines` array of the issue-closed rich post, including the
conditional mention of the mapped opener (`if (feishuUserId) { push ... }`). -/
def issueClosedLines (issue sender feishuUserId : JsValue) : List Segment :=
  let base := [
    Segment.text ("Issue #" ++ jsToString (jsIndex issue "number") ++ " 已关闭\n"),
    Segment.text (jsToString (jsIndex issue "title") ++ "\n"),
    Segment.link "查看详情" (jsIndex issue "html_url"),
    Segment.text ("\nby " ++ loginOrUnknown sender)]
  if jsTruthy feishuUserId then
    base ++ [Segment.text "\n",
             Segment.mention (jsIndex feishuUserId "id") (jsIndex feishuUserId "name")]
  else base

/-- `${comment.body?.slice(0, 200) || ""}${comment.body?.length > 200 ? "..." : ""}`
applied to the value of `comment.body`. A string is sliced to 200
characters; absent/null bodies render empty; an array has `slice` and
`length` too; any other value makes `x?.slice(0, 200)` a `TypeError`
(calling a non-function). -/
def renderCommentSnippet : JsValue → Except JsError String
  | .undefined => .ok ""
  | .null => .ok ""
  | .str s =>
      let sliced := String.mk (s.data.take 200)
      .ok ((if sliced == "" then "" else sliced) ++
           (if decide (s.length > 200) then "..." else ""))
  | .arr xs =>
      .ok (jsToString (.arr (xs.take 200)) ++ (if decide (xs.length > 200) then "..." else ""))
  | _ => .error .typeError

/-- The plain-text body of the `issue_comment/created` notification,
evaluating the template-literal accesses in source order. -/
def newCommentText (repo issue comment : JsValue) : Except JsError String := do
  let number ← jsGet issue "number"
  let title ← jsGet issue "title"
  let user ← jsGet comment "user"
  let body ← jsGet comment "body"
  let snippet ← renderCommentSnippet body
  let htmlUrl ← jsGet comment "html_url"
  pure ("💬 [" ++ jsToString repo ++ "] Issue #" ++ jsToString number ++ " 新评论\n" ++
        jsToString title ++ "\nby " ++ loginOrUnknown user ++ "\n\n" ++ snippet ++ "\n" ++
        jsToString htmlUrl)

/-! ## Outbound notification (`sendFeishuText` / `sendFeishuPost`) -/

/-- `feishuSign(timestampSec, secret)`:
`base64(HMAC-SHA256(secret, timestamp + "\n" + secret))`. -/
def feishuSign (timestampSec secret : String) : String :=
  base64Encode (hmacSha256 (utf8Encode secret) (utf8Encode (timestampSec ++ "\n" ++ secret)))

/-- The JSON payload POSTed to the Feishu webhook: the message plus, when
`FEISHU_SIGN_SECRET` is configured, the `timestamp` and `sign` fields. -/
structure SentPayload where
  msg : FeishuMsg
  timestampAndSign : Option (String × String)

/-- Attach `timestamp`/`sign` when the signing secret is non-empty. -/
def buildFeishuPayload (signSecret : String) (nowSec : Nat) (msg : FeishuMsg) : SentPayload :=
  if signSecret == "" then ⟨msg, none⟩
  else ⟨msg, some (toString nowSec, feishuSign (toString nowSec) signSecret)⟩

/-- `sendFeishu*(...).catch(err => console.error("Feishu send failed:", err))`:
a failed delivery produces one error-log line and nothing else. -/
def logDelivery : Option String → List String
  | none => []
  | some e => ["Feishu send failed: " ++ e]

/-! ## The webhook route handler (`app.post("/github/webhook", ...)`) -/

/-- The resolved configuration values the handler reads (environment
variables, parsed once at startup). `userMapping` is `JSON.parse` of
`USER_MAPPING` with `{}` as fallback on a parse error. -/
structure Config where
  githubWebhookSecret : Option String
  feishuWebhookUrl : Option String
  feishuSignSecret : String
  allowedRepos : List String
  userMapping : JsValue

/-- One inbound request: the raw body bytes and the consumed headers. -/
structure WebhookRequest where
  body : List Nat
  signatureHeader : Option String
  eventHeader : Option String
  deliveryHeader : Option String

structure HttpResponse where
  status : Nat
  body : String
deriving DecidableEq

/-- The observable outcome of one inbound request: the HTTP response, the
outbound payloads dispatched fire-and-forget, and the delivery-error log. -/
structure Outcome where
  response : HttpResponse
  sent : List SentPayload
  deliveryErrors : List String

/-- JS falsiness of an environment string (`undefined` or empty). -/
def envFalsy (o : Option String) : Bool := o.getD "" == ""

/-- `!GITHUB_WEBHOOK_SECRET || !FEISHU_WEBHOOK_URL`. -/
def cfgMisconfigured (cfg : Config) : Bool :=
  envFalsy cfg.githubWebhookSecret || envFalsy cfg.feishuWebhookUrl

/-- `payload?.repository?.full_name || ""`. -/
def repoOf (payload : JsValue) : JsValue :=
  jsOr (optChainGet (optChainGet payload "repository") "full_name") (.str "")

/-- `ALLOWED_REPOS.size && !ALLOWED_REPOS.has(repo)`. -/
def repoIgnored (allowList : List String) (repo : JsValue) : Bool :=
  decide (allowList.length ≠ 0) && !(jsSetHas allowList repo)

/-- `event === "issues" && payload?.action === "closed"`. -/
def recognizedIssuesClosed (event : String) (payload : JsValue) : Bool :=
  event == "issues" && jsStrictEqStr (optChainGet payload "action") "closed"

/-- `event === "issue_comment" && payload?.action === "created"`. -/
def recognizedCommentCreated (event : String) (payload : JsValue) : Bool :=
  event == "issue_comment" && jsStrictEqStr (optChainGet payload "action") "created"

/-- The synchronous part of the route handler: everything up to and
including the HTTP response and the choice of outbound message. `parse` is
the `JSON.parse(req.body.toString("utf8"))` oracle (`none` = it threw).
The `X-GitHub-Delivery` header is read into a variable the handler never
uses (the source leaves deduplication as a comment). A `TypeError` escaping
the handler body (property access on a missing `issue`/`comment` object or
a `null` identity mapping) aborts the request without any response. -/
def handleCore (cfg : Config) (req : WebhookRequest)
    (parse : List Nat → Option JsValue) :
    Except JsError (HttpResponse × Option FeishuMsg) :=
  match req with
  | ⟨body, signatureHeader, eventHeader, _deliveryHeader⟩ =>
    if cfgMisconfigured cfg then .ok (⟨500, "Server not configured"⟩, none)
    else
      match verifyGitHubSignature cfg.githubWebhookSecret body signatureHeader with
      | .error e => .error e
      | .ok sigOk =>
        if !sigOk then .ok (⟨401, "Invalid signature"⟩, none)
        else
          let event := eventHeader.getD ""
          match parse body with
          | none => .ok (⟨400, "Bad JSON"⟩, none)
          | some payload =>
            let repo := repoOf payload
            if repoIgnored cfg.allowedRepos repo then .ok (⟨200, "Ignored repo"⟩, none)
            else if recognizedIssuesClosed event payload then
              let issue := jsIndex payload "issue"
              match jsGet issue "user" with
              | .error e => .error e
              | .ok user =>
                let opener := openerLogin user
                match jsGet cfg.userMapping (jsToString opener) with
                | .error e => .error e
                | .ok feishuUserId =>
                  let lines := issueClosedLines issue (jsIndex payload "sender") feishuUserId
                  .ok (⟨202, "Accepted"⟩, some (.post ("✅ [" ++ jsToString repo ++ "]") lines))
            else if recognizedCommentCreated event payload then
              match newCommentText repo (jsIndex payload "issue") (jsIndex payload "comment") with
              | .error e => .error e
              | .ok text => .ok (⟨202, "Accepted"⟩, some (.text text))
            else .ok (⟨200, "Ignored event"⟩, none)

/-- The full request: after the response is chosen, the accepted message
(if any) is dispatched fire-and-forget; `deliver` is the outcome of the
downstream POST (`some err` = non-ok status or network failure), which is
only turned into an error-log line. -/
def runRequest (cfg : Config) (req : WebhookRequest)
    (parse : List Nat → Option JsValue)
    (deliver : SentPayload → Option String) (nowSec : Nat) : Except JsError Outcome :=
  match handleCore cfg req parse with
  | .error e => .error e
  | .ok (resp, none) => .ok ⟨resp, [], []⟩
  | .ok (resp, some msg) =>
      let sp := buildFeishuPayload cfg.feishuSignSecret nowSec msg
      .ok ⟨resp, [sp], logDelivery (deliver sp)⟩

/-- Sanity check of the SHA-256 model against the FIPS test vector for "abc". -/
theorem sha256_vector_abc :
    hexDigest (sha256 (utf8Encode "abc")) =
      "ba7816bf8f01cfea414140de5dae2223b00361a396177a9cb410ff61f20015ad" := by decide

/-- Sanity check against the SHA-256 digest of the empty message. -/
theorem sha256_vector_empty :
    hexDigest (sha256 []) =
      "e3b0c44298fc1c149afbf4c8996fb92427ae41e4649b934ca495991b7852b855" := by decide

/-- Sanity check of the HMAC model against RFC 4231 test case 2. -/
theorem hmac_vector_rfc4231 :
    hexDigest (hmacSha256 (utf8Encode "Jefe") (utf8Encode "what do ya want for nothing?")) =
      "5bdcc146bf60754e6a042426089575c75a003f089d2739839dec58b964ec3843" := by decide

/-! ## Length and character facts about the digest pipeline -/

theorem compressStep_length (st : List Nat) (wk : Nat × Nat) :
    (compressStep st wk).length = 8 := rfl

theorem foldl_compressStep_length (l : List (Nat × Nat)) (st : List Nat)
    (h : st.length = 8) : (l.foldl compressStep st).length = 8 := by
  induction l generalizing st with
  | nil => simpa using h
  | cons p ps ih => exact ih _ (compressStep_length _ _)

theorem processBlock_length (st b : List Nat) (h : st.length = 8) :
    (processBlock st b).length = 8 := by
  unfold processBlock
  rw [List.length_zipWith, foldl_compressStep_length _ _ h, h]
  rfl

theorem foldl_processBlock_length (blocks : List (List Nat)) (st : List Nat)
    (h : st.length = 8) : (blocks.foldl processBlock st).length = 8 := by
  induction blocks generalizing st with
  | nil => simpa using h
  | cons b bs ih => exact ih _ (processBlock_length _ _ h)

theorem map_wordBytes_flatten_length (l : List Nat) :
    ((l.map wordBytes).flatten).length = 4 * l.length := by
  induction l with
  | nil => rfl
  | cons x xs ih =>
      simp only [List.map_cons, List.flatten_cons, List.length_append, ih, List.length_cons]
      simp [wordBytes]
      omega

theorem sha256_length (msg : List Nat) : (sha256 msg).length = 32 := by
  unfold sha256
  rw [map_wordBytes_flatten_length, foldl_processBlock_length _ _ (by rfl)]

theorem hmacSha256_length (key msg : List Nat) : (hmacSha256 key msg).length = 32 := by
  unfold hmacSha256
  exact sha256_length _

theorem hexDigest_length (l : List Nat) : (hexDigest l).length = 2 * l.length := by
  show ((l.map fun b => [hexChar (b / 16), hexChar (b % 16)]).flatten).length = 2 * l.length
  induction l with
  | nil => rfl
  | cons x xs ih =>
      simp only [List.map_cons, List.flatten_cons, List.length_append, ih]
      simp
      omega

theorem hexChar_ascii (n : Nat) : (hexChar n).toNat < 128 := by
  unfold hexChar
  have h : n % 16 < hexDigits.length := Nat.mod_lt _ (by decide)
  rw [List.getD_eq_getElem?_getD, List.getElem?_eq_getElem h, Option.getD_some]
  have hall : ∀ c ∈ hexDigits, c.toNat < 128 := by decide
  exact hall _ (List.getElem_mem h)

theorem hexDigest_ascii (l : List Nat) : ∀ c ∈ (hexDigest l).data, c.toNat < 128 := by
  intro c hc
  show c.toNat < 128
  have : c ∈ (l.map fun b => [hexChar (b / 16), hexChar (b % 16)]).flatten := hc
  rw [List.mem_flatten] at this
  obtain ⟨pair, hpair, hcp⟩ := this
  rw [List.mem_map] at hpair
  obtain ⟨b, _, rfl⟩ := hpair
  cases hcp with
  | head => exact hexChar_ascii _
  | tail _ h =>
      cases h with
      | head => exact hexChar_ascii _
      | tail _ h => cases h

theorem expectedHeader_length (sk : String) (B : List Nat) :
    (expectedHeader sk B).length = 71 := by
  unfold expectedHeader
  rw [String.length_append, hexDigest_length, hmacSha256_length]
  decide

theorem expectedHeader_ascii (sk : String) (B : List Nat) :
    ∀ c ∈ (expectedHeader sk B).data, c.toNat < 128 := by
  intro c hc
  unfold expectedHeader at hc
  rw [String.data_append, List.mem_append] at hc
  rcases hc with h | h
  · have hall : ∀ c ∈ ("sha256=" : String).data, c.toNat < 128 := by decide
    exact hall _ h
  · exact hexDigest_ascii _ _ h

theorem expectedHeader_ne_empty (sk : String) (B : List Nat) :
    expectedHeader sk B ≠ "" := by
  intro h
  have := congrArg String.length h
  rw [expectedHeader_length] at this
  simp [String.length] at this

/-! ## UTF-8 facts -/

theorem utf8Char_of_ascii {c : Char} (h : c.toNat < 128) : utf8Char c = [c.toNat] := by
  simp [utf8Char, h]

theorem utf8Char_ne_nil (c : Char) : utf8Char c ≠ [] := by
  simp only [utf8Char]
  split_ifs <;> simp

theorem utf8Char_nonascii_head {c : Char} (h : ¬ c.toNat < 128) :
    ∃ b rest, utf8Char c = b :: rest ∧ 192 ≤ b := by
  simp only [utf8Char]
  rw [if_neg h]
  split_ifs
  · exact ⟨_, _, rfl, by omega⟩
  · exact ⟨_, _, rfl, by omega⟩
  · exact ⟨_, _, rfl, by omega⟩

theorem utf8Bytes_length_ascii (l : List Char) (h : ∀ c ∈ l, c.toNat < 128) :
    (utf8Bytes l).length = l.length := by
  induction l with
  | nil => rfl
  | cons c cs ih =>
      show (utf8Char c ++ utf8Bytes cs).length = cs.length + 1
      rw [utf8Char_of_ascii (h c (by simp)), List.length_append,
          ih fun d hd => h d (by simp [hd])]
      simp
      omega

theorem char_eq_of_toNat_eq {c d : Char} (h : c.toNat = d.toNat) : c = d :=
  Char.ext (UInt32.toNat.inj h)

theorem utf8Bytes_inj_ascii :
    ∀ l₁ l₂ : List Char, (∀ c ∈ l₂, c.toNat < 128) →
      utf8Bytes l₁ = utf8Bytes l₂ → l₁ = l₂ := by
  intro l₁ l₂
  induction l₂ generalizing l₁ with
  | nil =>
      intro _ heq
      cases l₁ with
      | nil => rfl
      | cons c cs =>
          exfalso
          have : utf8Char c ++ utf8Bytes cs = [] := heq
          rw [List.append_eq_nil] at this
          exact utf8Char_ne_nil c this.1
  | cons d ds ih =>
      intro hascii heq
      have hd : d.toNat < 128 := hascii d (by simp)
      cases l₁ with
      | nil =>
          exfalso
          have : ([] : List Nat) = utf8Char d ++ utf8Bytes ds := heq
          rw [utf8Char_of_ascii hd] at this
          exact List.cons_ne_nil _ _ this.symm
      | cons c cs =>
          by_cases hc : c.toNat < 128
          · have h1 : utf8Char c ++ utf8Bytes cs = utf8Char d ++ utf8Bytes ds := heq
            rw [utf8Char_of_ascii hc, utf8Char_of_ascii hd] at h1
            simp only [List.cons_append, List.nil_append, List.cons.injEq] at h1
            have hcd := char_eq_of_toNat_eq h1.1
            rw [hcd, ih cs (fun e he => hascii e (by simp [he])) h1.2]
          · exfalso
            obtain ⟨b, rest, hbr, hb⟩ := utf8Char_nonascii_head hc
            have h1 : utf8Char c ++ utf8Bytes cs = utf8Char d ++ utf8Bytes ds := heq
            rw [hbr, utf8Char_of_ascii hd] at h1
            simp only [List.cons_append, List.nil_append, List.cons.injEq] at h1
            omega

theorem utf8Encode_length_ascii (s : String) (h : ∀ c ∈ s.data, c.toNat < 128) :
    (utf8Encode s).length = s.length :=
  utf8Bytes_length_ascii s.data h

theorem utf8Encode_inj_ascii (s t : String) (h : ∀ c ∈ t.data, c.toNat < 128)
    (heq : utf8Encode s = utf8Encode t) : s = t := by
  have hdata : s.data = t.data := utf8Bytes_inj_ascii s.data t.data h heq
  cases s with
  | mk d1 =>
      cases t with
      | mk d2 => exact congrArg String.mk hdata

/-! ## The constant-time comparison -/

theorem nat_or_eq_zero (m n : Nat) : m ||| n = 0 ↔ m = 0 ∧ n = 0 := by
  constructor
  · intro h
    constructor
    · apply Nat.eq_of_testBit_eq
      intro i
      have hb := congrArg (fun x => x.testBit i) h
      simp only [Nat.testBit_or, Nat.zero_testBit, Bool.or_eq_false_iff] at hb
      simp [hb.1]
    · apply Nat.eq_of_testBit_eq
      intro i
      have hb := congrArg (fun x => x.testBit i) h
      simp only [Nat.testBit_or, Nat.zero_testBit, Bool.or_eq_false_iff] at hb
      simp [hb.2]
  · rintro ⟨rfl, rfl⟩
    simp

theorem ctCompareTrace_fst (ps : List (Nat × Nat)) :
    ∀ acc, (ctCompareTrace ps acc).1 = 0 ↔ (acc = 0 ∧ ∀ p ∈ ps, p.1 = p.2) := by
  induction ps with
  | nil => intro acc; simp [ctCompareTrace]
  | cons p ps ih =>
      intro acc
      show (ctCompareTrace ps (acc ||| (p.1 ^^^ p.2))).1 = 0 ↔ _
      rw [ih]
      rw [nat_or_eq_zero, Nat.xor_eq_zero]
      constructor
      · rintro ⟨⟨h1, h2⟩, h3⟩
        refine ⟨h1, fun q hq => ?_⟩
        cases hq with
        | head => exact h2
        | tail _ hq => exact h3 _ hq
      · rintro ⟨h1, h2⟩
        exact ⟨⟨h1, h2 p (by simp)⟩, fun q hq => h2 q (List.mem_cons_of_mem _ hq)⟩

theorem ctCompareTrace_snd (ps : List (Nat × Nat)) :
    ∀ acc, (ctCompareTrace ps acc).2 = ps.length := by
  induction ps with
  | nil => intro acc; rfl
  | cons p ps ih =>
      intro acc
      show (ctCompareTrace ps (acc ||| (p.1 ^^^ p.2))).2 + 1 = ps.length + 1
      rw [ih]

theorem zip_self_pairs (l : List Nat) : ∀ p ∈ l.zip l, p.1 = p.2 := by
  induction l with
  | nil => simp
  | cons x xs ih =>
      intro p hp
      rw [List.zip_cons_cons] at hp
      cases hp with
      | head => rfl
      | tail _ hp => exact ih _ hp

theorem eq_of_zip_forall (a : List Nat) :
    ∀ b, a.length = b.length → (∀ p ∈ a.zip b, p.1 = p.2) → a = b := by
  induction a with
  | nil =>
      intro b hlen _
      cases b
      · rfl
      · simp at hlen
  | cons x xs ih =>
      intro b hlen h
      cases b with
      | nil => simp at hlen
      | cons y ys =>
          have hx : x = y := h (x, y) (by rw [List.zip_cons_cons]; exact List.mem_cons_self _ _)
          have hxs : xs = ys := by
            apply ih ys (by simpa using hlen)
            intro p hp
            apply h p
            rw [List.zip_cons_cons]
            exact List.mem_cons_of_mem _ hp
          rw [hx, hxs]

theorem timingSafeEqual_ok_true_iff (a b : List Nat) :
    timingSafeEqual a b = .ok true ↔ a = b := by
  unfold timingSafeEqual
  split
  · next hlen =>
      simp only [Except.ok.injEq, beq_iff_eq]
      rw [ctCompareTrace_fst]
      constructor
      · rintro ⟨_, h⟩
        exact eq_of_zip_forall a b hlen h
      · rintro rfl
        exact ⟨rfl, zip_self_pairs a⟩
  · next hlen =>
      constructor
      · intro h
        cases h
      · rintro rfl
        exact absurd rfl hlen

theorem timingSafeEqual_self (l : List Nat) : timingSafeEqual l l = .ok true :=
  (timingSafeEqual_ok_true_iff l l).2 rfl

theorem timingSafeEqual_ne_length (a b : List Nat) (h : a.length ≠ b.length) :
    timingSafeEqual a b = .error .rangeError := by
  unfold timingSafeEqual
  rw [if_neg h]

theorem timingSafeEqual_eq_length_ok (a b : List Nat) (h : a.length = b.length) :
    timingSafeEqual a b = .ok ((ctCompareTrace (a.zip b) 0).1 == 0) := by
  unfold timingSafeEqual
  rw [if_pos h]

/-! ## Behaviour of `verifyGitHubSignature` -/

theorem timingSafeEqualTimed_fst (a b : List Nat) :
    (timingSafeEqualTimed a b).1 = timingSafeEqual a b := by
  unfold timingSafeEqualTimed timingSafeEqual
  split <;> rfl

theorem verifyGitHubSignatureTimed_fst (s : Option String) (B : List Nat) (H : Option String) :
    (verifyGitHubSignatureTimed s B H).1 = verifyGitHubSignature s B H := by
  cases s with
  | none => rfl
  | some sk =>
      simp only [verifyGitHubSignatureTimed, verifyGitHubSignature]
      split
      · rfl
      · exact timingSafeEqualTimed_fst _ _

theorem verify_roundtrip (sk : String) (B : List Nat) :
    verifyGitHubSignature (some sk) B (some (expectedHeader sk B)) = .ok true := by
  have h1 : (expectedHeader sk B == "") = false := by
    rw [beq_eq_false_iff_ne]
    exact expectedHeader_ne_empty sk B
  simp only [verifyGitHubSignature, Option.getD_some, h1, bne_self_eq_false, Bool.or_false,
    Bool.false_eq_true, if_false]
  exact timingSafeEqual_self _

theorem verify_ok_true_iff (sk : String) (B : List Nat) (H : Option String) :
    verifyGitHubSignature (some sk) B H = .ok true ↔ H = some (expectedHeader sk B) := by
  constructor
  · intro h
    simp only [verifyGitHubSignature] at h
    split at h
    · simp at h
    · have hbytes := (timingSafeEqual_ok_true_iff _ _).1 h
      have hstr : H.getD "" = expectedHeader sk B :=
        utf8Encode_inj_ascii _ _ (expectedHeader_ascii sk B) hbytes
      cases H with
      | none =>
          simp only [Option.getD_none] at hstr
          exact absurd hstr.symm (expectedHeader_ne_empty sk B)
      | some h' =>
          simp only [Option.getD_some] at hstr
          rw [hstr]
  · rintro rfl
    exact verify_roundtrip sk B

theorem verify_ascii_mismatch_false (sk : String) (B : List Nat) (H : Option String)
    (hascii : ∀ c ∈ (H.getD "").data, c.toNat < 128)
    (hne : H ≠ some (expectedHeader sk B)) :
    verifyGitHubSignature (some sk) B H = .ok false := by
  simp only [verifyGitHubSignature]
  split
  · rfl
  · next hcond =>
      simp only [Bool.or_eq_true, beq_iff_eq, bne_iff_ne, not_or, not_not] at hcond
      obtain ⟨hs, hlen⟩ := hcond
      have hblen : (utf8Encode (H.getD "")).length =
          (utf8Encode (expectedHeader sk B)).length := by
        rw [utf8Encode_length_ascii _ hascii,
            utf8Encode_length_ascii _ (expectedHeader_ascii sk B), hlen]
      rw [timingSafeEqual_eq_length_ok _ _ hblen]
      have hfold : (ctCompareTrace
          ((utf8Encode (H.getD "")).zip (utf8Encode (expectedHeader sk B))) 0).1 ≠ 0 := by
        intro h0
        have hall := ((ctCompareTrace_fst _ 0).1 h0).2
        have heq := eq_of_zip_forall _ _ hblen hall
        have hstr := utf8Encode_inj_ascii _ _ (expectedHeader_ascii sk B) heq
        cases H with
        | none =>
            simp only [Option.getD_none] at hstr
            exact expectedHeader_ne_empty sk B hstr.symm
        | some h' =>
            simp only [Option.getD_some] at hstr
            exact hne (by rw [hstr])
      simp only [Except.ok.injEq]
      exact beq_eq_false_iff_ne.mpr hfold

/-- C1: for a configured secret, `verifyGitHubSignature` answers `true`
exactly when the header is `"sha256=" ++ hex(HMAC-SHA256(secret, body))`
(so `verify(B, sign(B,S), S)` is `true`), and any other header made of
ASCII characters yields `false`. (For non-ASCII headers of matching
character length the comparison throws instead; see the counterexample.) -/
theorem verifyGitHubSignature_correct (S : String) (B : List Nat) (H : Option String) :
    (verifyGitHubSignature (some S) B H = .ok true ↔ H = some (expectedHeader S B)) ∧
    ((∀ c ∈ (H.getD "").data, c.toNat < 128) → H ≠ some (expectedHeader S B) →
      verifyGitHubSignature (some S) B H = .ok false) :=
  ⟨verify_ok_true_iff S B H, fun ha hne => verify_ascii_mismatch_false S B H ha hne⟩

/-- Witness for C1: a wrong ASCII header on a concrete request is rejected
with `false`. -/
theorem verifyGitHubSignature_correct_witness :
    verifyGitHubSignature (some "k") [] (some "x") = .ok false :=
  (verifyGitHubSignature_correct "k" [] (some "x")).2 (by decide)
    (by
      intro h
      have h2 : "x" = expectedHeader "k" [] := by injection h
      have h3 := congrArg String.length h2
      rw [expectedHeader_length] at h3
      exact absurd h3 (by decide))

/-- Counterexample to C1 as stated: a header that differs from the expected
one does not always yield `false` — a 71-character header containing a
non-ASCII character passes the JS string-length guard but has 72 UTF-8
bytes, so `crypto.timingSafeEqual` throws a `RangeError` instead of
returning `false`. -/
theorem c1_counterexample :
    verifyGitHubSignature (some "k") []
      (some ("sha256=" ++ String.mk (List.replicate 63 'a') ++ "é")) = .error .rangeError := by
  have hexp := expectedHeader_length "k" ([] : List Nat)
  have hc1 : (("sha256=" ++ String.mk (List.replicate 63 'a') ++ "é") == "") = false := by decide
  have hc2 : (("sha256=" ++ String.mk (List.replicate 63 'a') ++ "é").length !=
      (expectedHeader "k" []).length) = false := by
    rw [hexp]
    decide
  simp only [verifyGitHubSignature, Option.getD_some, hc1, hc2, Bool.or_false,
    Bool.false_eq_true, if_false]
  apply timingSafeEqual_ne_length
  rw [utf8Encode_length_ascii _ (expectedHeader_ascii _ _), hexp]
  decide

/-- C2 amended: with the secret configured, `verifyGitHubSignature` is
total (answers `ok`, never throws) on every body and every ASCII signature
header; missing header and mismatch included. (With the secret missing it
throws, and a non-ASCII header of matching length makes the comparison
throw; see the counterexample.) -/
theorem verify_total_when_secret_present (sk : String) (B : List Nat) (H : Option String)
    (hascii : ∀ c ∈ (H.getD "").data, c.toNat < 128) :
    exceptOk (verifyGitHubSignature (some sk) B H) = true := by
  simp only [verifyGitHubSignature]
  split
  · rfl
  · next hcond =>
      simp only [Bool.or_eq_true, beq_iff_eq, bne_iff_ne, not_or, not_not] at hcond
      obtain ⟨hs, hlen⟩ := hcond
      have hblen : (utf8Encode (H.getD "")).length =
          (utf8Encode (expectedHeader sk B)).length := by
        rw [utf8Encode_length_ascii _ hascii,
            utf8Encode_length_ascii _ (expectedHeader_ascii sk B), hlen]
      rw [timingSafeEqual_eq_length_ok _ _ hblen]
      rfl

/-- Witness for C2: with a secret present and the header absent, `verify`
returns a value (it is `ok`). -/
theorem verify_total_when_secret_present_witness :
    exceptOk (verifyGitHubSignature (some "k") [] none) = true :=
  verify_total_when_secret_present "k" [] none (by decide)

/-- Counterexample to C2 as stated: with the secret missing
(`GITHUB_WEBHOOK_SECRET` unset), `crypto.createHmac("sha256", undefined)`
throws a `TypeError`, so `verify` does not return `false`. -/
theorem c2_counterexample :
    verifyGitHubSignature none [] none = .error .typeError := rfl

/-- C3: the signature comparison first rejects on (JS string) length
mismatch with zero byte comparisons, and the constant-time primitive
always visits every byte pair of equal-length inputs — the comparison
count depends only on the length, never on the position of a mismatch. -/
theorem constant_time_comparison (sk : String) (B : List Nat) (H : Option String)
    (a b : List Nat) :
    (H.getD "" ≠ "" → (H.getD "").length ≠ (expectedHeader sk B).length →
      verifyGitHubSignatureTimed (some sk) B H = (.ok false, 0)) ∧
    (a.length = b.length → (timingSafeEqualTimed a b).2 = a.length) := by
  constructor
  · intro _ hlen
    simp only [verifyGitHubSignatureTimed]
    rw [if_pos]
    simp only [Bool.or_eq_true, bne_iff_ne]
    exact Or.inr hlen
  · intro hlen
    simp only [timingSafeEqualTimed]
    rw [if_pos hlen]
    simp only [ctCompareTrace_snd, List.length_zip]
    omega

/-- Witness for C3: a short wrong header is rejected with zero byte
comparisons, and comparing two concrete equal-length buffers that differ
in their first byte still visits all three byte pairs. -/
theorem constant_time_comparison_witness :
    verifyGitHubSignatureTimed (some "k") [] (some "x") = (.ok false, 0) ∧
    (timingSafeEqualTimed [1, 2, 3] [9, 2, 3]).2 = 3 :=
  ⟨(constant_time_comparison "k" [] (some "x") [1, 2, 3] [9, 2, 3]).1 (by decide)
      (by rw [expectedHeader_length]; decide),
   (constant_time_comparison "k" [] (some "x") [1, 2, 3] [9, 2, 3]).2 rfl⟩

/-! ## The repository filter -/

/-- C6: the repository filter is pure and accepts exactly when the
allow-list is empty (feature disabled) or contains the repository full
name; in particular every repo passes an empty list, a listed repo passes
and an unlisted repo is ignored. -/
theorem repoAllowed_iff (r : String) (l : List String) :
    repoIgnored l (.str r) = false ↔ (l = [] ∨ r ∈ l) := by
  have hcont : l.contains r = decide (r ∈ l) := by
    rw [List.contains, List.elem_eq_mem]
  constructor
  · intro h
    by_cases hl : l = []
    · exact Or.inl hl
    · right
      by_contra hr
      have h1 : decide (l.length ≠ 0) = true := by
        cases l
        · exact absurd rfl hl
        · simp
      have h2 : l.contains r = false := by
        rw [hcont]
        exact decide_eq_false hr
      simp only [repoIgnored, jsSetHas, h1, h2, Bool.not_false, Bool.true_and] at h
      cases h
  · intro h
    rcases h with rfl | hr
    · rfl
    · have h2 : l.contains r = true := by
        rw [hcont]
        exact decide_eq_true hr
      simp only [repoIgnored, jsSetHas, h2, Bool.not_true, Bool.and_false]

/-! ## Comment-body truncation -/

/-- C7: a comment body longer than 200 characters renders as its first 200
characters followed by "..."; a body of at most 200 characters (200
included) renders unmodified with no ellipsis; a missing body renders as
the empty string. -/
theorem comment_truncation (s : String) :
    (s.length > 200 → renderCommentSnippet (.str s) = .ok (String.mk (s.data.take 200) ++ "...")) ∧
    (s.length ≤ 200 → renderCommentSnippet (.str s) = .ok s) ∧
    renderCommentSnippet .undefined = .ok "" := by
  have hid : ∀ x : String, (if x == "" then "" else x) = x := by
    intro x
    split
    · next hx => exact (eq_of_beq hx).symm
    · rfl
  refine ⟨?_, ?_, rfl⟩
  · intro h
    simp only [renderCommentSnippet, hid, decide_eq_true h, if_true]
  · intro h
    have ht : s.data.take 200 = s.data := List.take_of_length_le h
    have hd : decide (s.length > 200) = false := decide_eq_false (by omega)
    simp only [renderCommentSnippet, hid, ht, hd, Bool.false_eq_true, if_false]
    cases s with
    | mk data => simp [String.append_empty]

/-- Witness for C7: a 250-character body is truncated to 200 plus "...". -/
theorem comment_truncation_witness :
    renderCommentSnippet (.str (String.mk (List.replicate 250 'a'))) =
      .ok (String.mk ((String.mk (List.replicate 250 'a')).data.take 200) ++ "...") :=
  (comment_truncation (String.mk (List.replicate 250 'a'))).1 (by decide)

/-! ## Attribution fallbacks -/

/-- Counterexample to C9 as stated: the opener login is not rendered as
"unknown" when missing — `issue.user?.login || ""` falls back to the empty
string (which is then only used as the identity-mapping key). -/
theorem c9_counterexample :
    openerLogin .undefined = .str "" ∧ ("" : String) ≠ "unknown" :=
  ⟨rfl, by decide⟩

/-- C9 amended: a missing sender login renders the issue-closed
attribution segment as "by unknown", and a missing commenter login makes
the `loginOrUnknown` attribution used in the new-comment text "unknown";
the missing opener login instead falls back to the empty string, used only
as the identity-mapping key and never rendered. -/
theorem missing_attribution_fallbacks (issue sender user fuid : JsValue)
    (hs : jsTruthy (optChainGet sender "login") = false)
    (hu : jsTruthy (optChainGet user "login") = false) :
    (issueClosedLines issue sender fuid).getD 3 (.text "") = .text "\nby unknown" ∧
    loginOrUnknown user = "unknown" ∧ openerLogin user = .str "" := by
  refine ⟨?_, ?_, ?_⟩
  · simp only [issueClosedLines, loginOrUnknown, jsOr, hs, Bool.false_eq_true, if_false]
    split <;> rfl
  · simp only [loginOrUnknown, jsOr, hu, Bool.false_eq_true, if_false]
    rfl
  · simp only [openerLogin, jsOr, hu, Bool.false_eq_true, if_false]

/-- Witness for C9 amended, at concrete inputs with all three logins
missing. -/
theorem missing_attribution_fallbacks_witness :
    (issueClosedLines (.obj []) .undefined .undefined).getD 3 (.text "") = .text "\nby unknown" ∧
    loginOrUnknown (.obj []) = "unknown" ∧ openerLogin (.obj []) = .str "" :=
  missing_attribution_fallbacks (.obj []) .undefined (.obj []) .undefined rfl rfl

/-! ## The mention segment -/

/-- C8: provided every identity-mapping entry is a truthy record (as the
spec's Identity Mapping data model prescribes), the issue-closed rich
message contains a mention exactly when the mapping contains the opener
key; when it does, the last segment is a mention addressed to the found
entry's `id` and `name`, every earlier segment is not a mention, and when
it does not, no segment is a mention at all. -/
theorem mention_iff_mapping (issue sender : JsValue) (m : List (String × JsValue)) (key : String)
    (hrec : ∀ p ∈ m, jsTruthy p.2 = true) :
    ((m.find? fun q => q.1 == key).isSome ↔ ∃ v, (key, v) ∈ m) ∧
    (∀ p, m.find? (fun q => q.1 == key) = some p →
      (issueClosedLines issue sender (jsIndex (.obj m) key)).getLast? =
        some (.mention (jsIndex p.2 "id") (jsIndex p.2 "name")) ∧
      ∀ s ∈ (issueClosedLines issue sender (jsIndex (.obj m) key)).dropLast,
        s.isMention = false) ∧
    (m.find? (fun q => q.1 == key) = none →
      ∀ s ∈ issueClosedLines issue sender (jsIndex (.obj m) key), s.isMention = false) := by
  refine ⟨?_, ?_, ?_⟩
  · rw [List.find?_isSome]
    constructor
    · rintro ⟨x, hx, hkey⟩
      rw [beq_iff_eq] at hkey
      exact ⟨x.2, by rw [← hkey]; exact hx⟩
    · rintro ⟨v, hv⟩
      exact ⟨(key, v), hv, by simp⟩
  · intro p hfind
    have hmem := List.mem_of_find?_eq_some hfind
    have htru : jsTruthy p.2 = true := hrec p hmem
    have hidx : jsIndex (.obj m) key = p.2 := by
      simp only [jsIndex, hfind]
    rw [hidx]
    simp only [issueClosedLines, htru, if_true]
    constructor
    · rfl
    · intro s hs
      simp only [List.cons_append, List.nil_append, List.dropLast] at hs
      simp only [List.mem_cons, List.not_mem_nil, or_false] at hs
      rcases hs with rfl | rfl | rfl | rfl | rfl <;> rfl
  · intro hfind
    have hidx : jsIndex (.obj m) key = .undefined := by
      simp only [jsIndex, hfind]
    rw [hidx]
    simp only [issueClosedLines, jsTruthy, Bool.false_eq_true, if_false]
    intro s hs
    simp only [List.mem_cons, List.not_mem_nil, or_false] at hs
    rcases hs with rfl | rfl | rfl | rfl <;> rfl

/-- Witness for C8: with a concrete mapping containing the opener, the
last rendered segment is the mention of that entry. -/
theorem mention_iff_mapping_witness :
    (issueClosedLines (.obj []) .undefined
        (jsIndex (.obj [("alice", JsValue.obj [("id", JsValue.str "u1"), ("name", JsValue.str "Ada")])])
          "alice")).getLast? =
      some (.mention
        (jsIndex (JsValue.obj [("id", JsValue.str "u1"), ("name", JsValue.str "Ada")]) "id")
        (jsIndex (JsValue.obj [("id", JsValue.str "u1"), ("name", JsValue.str "Ada")]) "name")) :=
  ((mention_iff_mapping (.obj []) .undefined
      [("alice", JsValue.obj [("id", JsValue.str "u1"), ("name", JsValue.str "Ada")])] "alice"
      (by decide)).2.1
    ("alice", JsValue.obj [("id", JsValue.str "u1"), ("name", JsValue.str "Ada")]) rfl).1

/-! ## The response pipeline -/

theorem jsGet_of_not_nullish (v : JsValue) (k : String) (h : jsNullish v = false) :
    jsGet v k = .ok (jsIndex v k) := by
  cases v <;> first
    | exact absurd h (by decide)
    | rfl

/-- C5: the inbound response and the set of dispatched notifications are
independent of the outcome of the downstream delivery: exchanging one
delivery oracle for any other changes at most the error log, never the
status, body or success of the inbound response. -/
theorem response_independent_of_delivery (cfg : Config) (req : WebhookRequest)
    (parse : List Nat → Option JsValue) (nowSec : Nat)
    (d₁ d₂ : SentPayload → Option String) :
    (runRequest cfg req parse d₁ nowSec).map (fun o => (o.response, o.sent)) =
    (runRequest cfg req parse d₂ nowSec).map (fun o => (o.response, o.sent)) := by
  cases h : handleCore cfg req parse with
  | error e => simp [runRequest, h]
  | ok p =>
      rcases p with ⟨resp, m⟩
      cases m <;> simp [runRequest, h, Except.map]

/-- C10: the handler performs no deduplication by the delivery id: two
requests identical except for the `X-GitHub-Delivery` header produce
identical outcomes — same response status and body, and each run
dispatches its own identical outbound notification. -/
theorem no_dedup_by_delivery_id (cfg : Config) (body : List Nat)
    (sig event d₁ d₂ : Option String) (parse : List Nat → Option JsValue)
    (deliver : SentPayload → Option String) (nowSec : Nat) :
    runRequest cfg ⟨body, sig, event, d₁⟩ parse deliver nowSec =
    runRequest cfg ⟨body, sig, event, d₂⟩ parse deliver nowSec := rfl

/-- C4 amended: the HTTP status is decided by the first failing stage in
the order config-check (500), signature-check (401, computed from the raw
bytes and independent of the parse), JSON-decode (400), repository-filter
and event-route (200), acceptance (202 with exactly one dispatched
notification) — provided, for the 202 stage, that the payload carries the
`issue` (and, for comments, `comment`) object the handler dereferences,
that the comment body is of a sliceable shape, and that the identity
mapping is not nullish; otherwise the handler throws before responding. -/
theorem webhook_status_pipeline (cfg : Config) (req : WebhookRequest)
    (parse : List Nat → Option JsValue) (deliver : SentPayload → Option String) (nowSec : Nat) :
    (cfgMisconfigured cfg = true →
      runRequest cfg req parse deliver nowSec =
        .ok ⟨⟨500, "Server not configured"⟩, [], []⟩) ∧
    (cfgMisconfigured cfg = false →
      verifyGitHubSignature cfg.githubWebhookSecret req.body req.signatureHeader = .ok false →
      runRequest cfg req parse deliver nowSec =
        .ok ⟨⟨401, "Invalid signature"⟩, [], []⟩) ∧
    (cfgMisconfigured cfg = false →
      verifyGitHubSignature cfg.githubWebhookSecret req.body req.signatureHeader = .ok true →
      parse req.body = none →
      runRequest cfg req parse deliver nowSec = .ok ⟨⟨400, "Bad JSON"⟩, [], []⟩) ∧
    (∀ payload, cfgMisconfigured cfg = false →
      verifyGitHubSignature cfg.githubWebhookSecret req.body req.signatureHeader = .ok true →
      parse req.body = some payload →
      repoIgnored cfg.allowedRepos (repoOf payload) = true →
      runRequest cfg req parse deliver nowSec = .ok ⟨⟨200, "Ignored repo"⟩, [], []⟩) ∧
    (∀ payload, cfgMisconfigured cfg = false →
      verifyGitHubSignature cfg.githubWebhookSecret req.body req.signatureHeader = .ok true →
      parse req.body = some payload →
      repoIgnored cfg.allowedRepos (repoOf payload) = false →
      recognizedIssuesClosed (req.eventHeader.getD "") payload = false →
      recognizedCommentCreated (req.eventHeader.getD "") payload = false →
      runRequest cfg req parse deliver nowSec = .ok ⟨⟨200, "Ignored event"⟩, [], []⟩) ∧
    (∀ payload, cfgMisconfigured cfg = false →
      verifyGitHubSignature cfg.githubWebhookSecret req.body req.signatureHeader = .ok true →
      parse req.body = some payload →
      repoIgnored cfg.allowedRepos (repoOf payload) = false →
      recognizedIssuesClosed (req.eventHeader.getD "") payload = true →
      jsNullish (jsIndex payload "issue") = false →
      jsNullish cfg.userMapping = false →
      (runRequest cfg req parse deliver nowSec).map (fun o => (o.response, o.sent.length)) =
        .ok (⟨202, "Accepted"⟩, 1)) ∧
    (∀ payload, cfgMisconfigured cfg = false →
      verifyGitHubSignature cfg.githubWebhookSecret req.body req.signatureHeader = .ok true →
      parse req.body = some payload →
      repoIgnored cfg.allowedRepos (repoOf payload) = false →
      recognizedIssuesClosed (req.eventHeader.getD "") payload = false →
      recognizedCommentCreated (req.eventHeader.getD "") payload = true →
      jsNullish (jsIndex payload "issue") = false →
      jsNullish (jsIndex payload "comment") = false →
      exceptOk (renderCommentSnippet (jsIndex (jsIndex payload "comment") "body")) = true →
      (runRequest cfg req parse deliver nowSec).map (fun o => (o.response, o.sent.length)) =
        .ok (⟨202, "Accepted"⟩, 1)) := by
  obtain ⟨body, sig, event, dh⟩ := req
  refine ⟨?_, ?_, ?_, ?_, ?_, ?_, ?_⟩
  · intro hcfg
    simp [runRequest, handleCore, hcfg]
  · intro hcfg hver
    simp [runRequest, handleCore, hcfg, hver]
  · intro hcfg hver hparse
    simp [runRequest, handleCore, hcfg, hver, hparse]
  · intro payload hcfg hver hparse hrepo
    simp [runRequest, handleCore, hcfg, hver, hparse, hrepo]
  · intro payload hcfg hver hparse hrepo hrec1 hrec2
    simp [runRequest, handleCore, hcfg, hver, hparse, hrepo, hrec1, hrec2]
  · intro payload hcfg hver hparse hrepo hrec hiss hmap
    have hg1 := jsGet_of_not_nullish (jsIndex payload "issue") "user" hiss
    have hg2 := jsGet_of_not_nullish cfg.userMapping
      (jsToString (openerLogin (jsIndex (jsIndex payload "issue") "user"))) hmap
    simp [runRequest, handleCore, hcfg, hver, hparse, hrepo, hrec, hg1, hg2, Except.map]
  · intro payload hcfg hver hparse hrepo hrec1 hrec2 hiss hcom hsnip
    have hg1 := jsGet_of_not_nullish (jsIndex payload "issue") "number" hiss
    have hg2 := jsGet_of_not_nullish (jsIndex payload "issue") "title" hiss
    have hg3 := jsGet_of_not_nullish (jsIndex payload "comment") "user" hcom
    have hg4 := jsGet_of_not_nullish (jsIndex payload "comment") "body" hcom
    have hg5 := jsGet_of_not_nullish (jsIndex payload "comment") "html_url" hcom
    obtain ⟨snippet, hsn⟩ : ∃ t, renderCommentSnippet (jsIndex (jsIndex payload "comment") "body") = .ok t := by
      cases hx : renderCommentSnippet (jsIndex (jsIndex payload "comment") "body") with
      | ok t => exact ⟨t, rfl⟩
      | error e => rw [hx] at hsnip; cases hsnip
    simp [runRequest, handleCore, newCommentText, hcfg, hver, hparse, hrepo, hrec1, hrec2,
      hg1, hg2, hg3, hg4, hg5, hsn, Except.map, Except.bind, bind, pure, Except.pure]

/-- Witness for C4: a fully concrete, correctly signed `issues/closed`
delivery with a well-formed payload is answered 202 with one dispatched
notification. -/
theorem webhook_status_pipeline_witness :
    (runRequest ⟨some "k", some "u", "", [], .obj []⟩
        ⟨[], some (expectedHeader "k" []), some "issues", none⟩
        (fun _ => some (JsValue.obj [("action", JsValue.str "closed"), ("issue", JsValue.obj [])]))
        (fun _ => none) 0).map (fun o => (o.response, o.sent.length)) =
      .ok (⟨202, "Accepted"⟩, 1) :=
  (webhook_status_pipeline ⟨some "k", some "u", "", [], .obj []⟩
      ⟨[], some (expectedHeader "k" []), some "issues", none⟩
      (fun _ => some (JsValue.obj [("action", JsValue.str "closed"), ("issue", JsValue.obj [])]))
      (fun _ => none) 0).2.2.2.2.2.1
    (JsValue.obj [("action", JsValue.str "closed"), ("issue", JsValue.obj [])])
    rfl (verify_roundtrip "k" []) rfl rfl rfl rfl rfl

/-- Counterexample to C4 as stated: a correctly signed `issues/closed`
delivery whose payload lacks the `issue` object is recognized by the
router, so the claim promises 202, but `issue.user` is a property access
on `undefined` and the handler throws before any response is sent. -/
theorem c4_counterexample :
    runRequest ⟨some "k", some "u", "", [], .obj []⟩
        ⟨[], some (expectedHeader "k" []), some "issues", none⟩
        (fun _ => some (JsValue.obj [("action", JsValue.str "closed")]))
        (fun _ => none) 0 = .error .typeError := by
  have hver := verify_roundtrip "k" ([] : List Nat)
  have h500 : cfgMisconfigured ⟨some "k", some "u", "", [], .obj []⟩ = false := rfl
  have hrepo : repoIgnored [] (repoOf (JsValue.obj [("action", JsValue.str "closed")])) = false := rfl
  have hrec : recognizedIssuesClosed "issues" (JsValue.obj [("action", JsValue.str "closed")]) =
      true := rfl
  have hjs : jsGet (jsIndex (JsValue.obj [("action", JsValue.str "closed")]) "issue") "user" =
      .error .typeError := rfl
  simp [runRequest, handleCore, hver, h500, hrepo, hrec, hjs]
